import Mathlib

/-!
Verification of the reagent volume checker's extraction and reconciliation
logic, as implemented in `pdf_processor.py`, `data_analyzer.py` and
`excel_processor.py`.

Python strings are modelled as Lean `String` (ASCII inputs), Python dates as
`Nat` codes `year * 10000 + month * 100 + day` (order-preserving for the
comparisons the code performs), and Python dicts as insertion-ordered
association lists.  Fallible parses return `Option`.
-/

/-- Decimal digit list to the number it denotes (`int` of a digit string). -/
def digitsToNat (ds : List Char) : Nat :=
  ds.foldl (fun n c => n * 10 + (c.toNat - '0'.toNat)) 0

/-- Split a character list at every occurrence of `sep`, keeping empty
pieces (Python `str.split(sep)`); structural so the kernel evaluates it. -/
def splitOnCharAux (sep : Char) : List Char → List Char → List (List Char)
  | [], acc => [acc.reverse]
  | c :: rest, acc =>
    if c = sep then acc.reverse :: splitOnCharAux sep rest []
    else splitOnCharAux sep rest (c :: acc)

/-- Split a character list at every character satisfying `p`, keeping empty
pieces. -/
def splitPredAux (p : Char → Bool) : List Char → List Char → List (List Char)
  | [], acc => [acc.reverse]
  | c :: rest, acc =>
    if p c then acc.reverse :: splitPredAux p rest []
    else splitPredAux p rest (c :: acc)

/-- Join character-list pieces with a single separator character. -/
def joinSep (sep : Char) : List (List Char) → List Char
  | [] => []
  | [x] => x
  | x :: xs => x ++ sep :: joinSep sep xs

/-- Python `str.lower()` (ASCII, as in the data modelled here). -/
def myToLower (s : String) : String :=
  String.mk (s.data.map Char.toLower)

/-- Python `str.strip()`: drop outer whitespace. -/
def myTrim (s : String) : String :=
  String.mk (((s.data.dropWhile Char.isWhitespace).reverse.dropWhile
    Char.isWhitespace).reverse)

/-- Substring test on character lists (Python's `in` on strings). -/
def containsSeq (pat : List Char) (s : List Char) : Bool :=
  match s with
  | [] => pat.isEmpty
  | _ :: rest => pat.isPrefixOf s || containsSeq pat rest

/-- `pat in s` for strings (Python substring containment). -/
def strContains (s pat : String) : Bool :=
  containsSeq pat.data s.data

/-- Python `str.split()` / `re.split(r"\s+", ...)` on an already-stripped
line: split on whitespace runs, dropping empty pieces. -/
def pySplit (s : String) : List String :=
  ((splitPredAux Char.isWhitespace s.data []).map String.mk).filter (fun t => t ≠ "")

/-- Python `int(s)` on a whitespace-free token: optional sign followed by
decimal digits, anything else raises (modelled as `none`). -/
def pyIntOpt (s : String) : Option Int :=
  match s.data with
  | [] => none
  | '-' :: ds =>
    if ds ≠ [] ∧ ds.all Char.isDigit then some (-(digitsToNat ds : Int)) else none
  | '+' :: ds =>
    if ds ≠ [] ∧ ds.all Char.isDigit then some ((digitsToNat ds : Int)) else none
  | ds =>
    if ds ≠ [] ∧ ds.all Char.isDigit then some ((digitsToNat ds : Int)) else none

/-- Python `str.title()`: a letter is upper-cased when the previous character
is not a letter, lower-cased otherwise. -/
def pyTitleAux : List Char → Bool → List Char
  | [], _ => []
  | c :: rest, prevAlpha =>
    (if prevAlpha then c.toLower else c.toUpper) :: pyTitleAux rest c.isAlpha

/-- Python `str.title()`. -/
def pyTitle (s : String) : String :=
  String.mk (pyTitleAux s.data false)

/-- `[line.strip() for line in text.splitlines() if line.strip()]`
(both parsers' first line; newline-only splitting suffices for the
line-oriented OCR inputs modelled here). -/
def parseLines (text : String) : List String :=
  (((splitOnCharAux '\n' text.data []).map (fun cs => myTrim (String.mk cs)))).filter
    (fun l => l ≠ "")

/-- `any(term in low for term in ['total', 'summary', 'magazine', 'waste'])`:
the shared end-of-table terminator test (pdf_processor.py lines 45 and 113). -/
def isStopLine (line : String) : Bool :=
  ["total", "summary", "magazine", "waste"].any (fun t => strContains (myToLower line) t)

/-- First index whose line satisfies `p` (the parsers' header scan). -/
def findHeaderIdx (p : String → Bool) : List String → Option Nat
  | [] => none
  | l :: ls => if p l then some 0 else (findHeaderIdx p ls).map (fun i => i + 1)

/-- pdf_processor.py line 34: a line is the Roche e801 header when
`'test' in line.lower() and 'remaining' in line.lower()`. -/
def e801HeaderLine (line : String) : Bool :=
  strContains (myToLower line) "test" && strContains (myToLower line) "remaining"

/-- pdf_processor.py line 102: a line is the Beckman AU5800 header when
`"r1/r2 shots" in line.lower()`. -/
def au5800HeaderLine (line : String) : Bool :=
  strContains (myToLower line) "r1/r2 shots"

/-! ### Beckman AU5800 parser (pdf_processor.py `parse_au5800`) -/

/-- One collected data row for a reagent: `{"shots": ..., "expiry_date": ...}`
(the `"line"` field is only echoed into diagnostics and carries no logic). -/
structure AUEntry where
  shots : Nat
  expiry_date : Option Nat
deriving Repr, DecidableEq

/-- The per-reagent aggregate produced at pdf_processor.py lines 210-214. -/
structure AUResult where
  shots : Nat
  expiry_date : Option Nat
  onboard_remaining : Option Nat
deriving Repr, DecidableEq

/-- Comparison used by `sorted(entries, key=lambda x: x["shots"])`. -/
def shotsLE (a b : AUEntry) : Prop := a.shots ≤ b.shots

instance : DecidableRel shotsLE := fun a b => Nat.decLe a.shots b.shots

instance : IsTotal AUEntry shotsLE := ⟨fun a b => Nat.le_total a.shots b.shots⟩

instance : IsTrans AUEntry shotsLE := ⟨fun _ _ _ h1 h2 => Nat.le_trans h1 h2⟩

/-- `sorted(entries, key=lambda x: x["shots"])` — a stable sort on the shots
key (stable sorts on the same key agree, so insertion sort models Python). -/
def sortEntries (entries : List AUEntry) : List AUEntry :=
  List.insertionSort shotsLE entries

/-- The `while i < len(entries)` walk of pdf_processor.py lines 190-201:
consecutive pairs contribute `min` of their shots, a trailing unpaired entry
contributes its own shots; every visited entry's date is collected. -/
def walkPairs : List AUEntry → Nat × List (Option Nat)
  | [] => (0, [])
  | [e] => (e.shots, [e.expiry_date])
  | e1 :: e2 :: rest =>
    let t := walkPairs rest
    (min e1.shots e2.shots + t.1, e1.expiry_date :: e2.expiry_date :: t.2)

/-- Python `min(list)` of a possibly-empty list, `none` when empty
(the code guards with `if expiry_dates else None`). -/
def listMin : List Nat → Option Nat
  | [] => none
  | x :: xs =>
    some (match listMin xs with
          | none => x
          | some m => min x m)

/-- pdf_processor.py lines 185-214: per-reagent aggregation — sort by shots,
walk pairwise summing `min` per pair, earliest non-`None` collected date. -/
def aggregate (entries : List AUEntry) : AUResult :=
  let sorted := sortEntries entries
  let walked := walkPairs sorted
  let dates := walked.2.filterMap id
  { shots := walked.1, expiry_date := listMin dates, onboard_remaining := none }

/-- Leap-year rule of `datetime.date`. -/
def isLeap (y : Nat) : Bool :=
  (y % 4 == 0 && y % 100 != 0) || y % 400 == 0

/-- Month length used by `datetime.date` validity checking. -/
def daysInMonth (y m : Nat) : Nat :=
  if m = 2 then (if isLeap y then 29 else 28)
  else if m = 4 ∨ m = 6 ∨ m = 9 ∨ m = 11 then 30
  else 31

/-- `datetime.strptime(s, "%m/%d/%Y").date()`: 1-2 digit month 1-12,
1-2 digit day 1-31 and valid for the month, exactly 4 digit year ≥ 1;
the whole token must be consumed.  Result encoded `y * 10000 + m * 100 + d`,
which preserves the calendar order used by `min`. -/
def parseMDY (s : String) : Option Nat :=
  match splitOnCharAux '/' s.data [] with
  | [mc, dc, yc] =>
    if mc.all Char.isDigit && (mc.length = 1 || mc.length = 2)
        && dc.all Char.isDigit && (dc.length = 1 || dc.length = 2)
        && yc.all Char.isDigit && yc.length = 4 then
      let m := digitsToNat mc
      let d := digitsToNat dc
      let y := digitsToNat yc
      if 1 ≤ m && m ≤ 12 && 1 ≤ d && d ≤ daysInMonth y m && 1 ≤ y then
        some (y * 10000 + m * 100 + d)
      else none
    else none
  | _ => none

/-- `int(re.sub(r"[^\d]", "", token))`: delete every non-digit character and
parse what remains; an all-non-digit token leaves `int('')`, which raises
(modelled as `none`).  pdf_processor.py lines 161-162. -/
def extractDigitsConcat (s : String) : Option Nat :=
  let ds := s.data.filter Char.isDigit
  if ds.isEmpty then none else some (digitsToNat ds)

/-- `s.split('.', 1)[1]` for a token known to contain a dot: everything after
the first dot. -/
def splitDotRest (s : String) : String :=
  match splitOnCharAux '.' s.data [] with
  | _ :: rest => String.mk (joinSep '.' rest)
  | [] => s

/-- `s.split('.')[1]` for a token known to contain a dot: the piece between
the first and second dots (the no-volume branch, pdf_processor.py line 131). -/
def splitDotSecond (s : String) : String :=
  match splitOnCharAux '.' s.data [] with
  | _ :: p1 :: _ => String.mk p1
  | _ => s

/-- `for i in range(7, min(10, len(tokens)))`: first token in positions 7-9
that parses as an `%m/%d/%Y` date.  pdf_processor.py lines 168-174. -/
def findExpiry (tokens : List String) : Option Nat :=
  ((List.range' 7 (min 10 tokens.length - 7)).filterMap
    (fun i => (tokens.get? i).bind parseMDY)).head?

/-- Parser state threaded through the AU5800 data-line loop:
`reagent_sets` (insertion-ordered dict of entry lists), `failed`
(diagnostics), `no_volume_entries` (name and echoed line). -/
structure AUParseState where
  sets : List (String × List AUEntry)
  failed : List String
  noVolume : List (String × String)
deriving Repr, DecidableEq

/-- `reagent_sets[name].append(entry)` with dict insertion-order semantics:
a new name goes to the back, an existing name keeps its position and the
entry is appended to its list. -/
def appendEntry (name : String) (e : AUEntry) :
    List (String × List AUEntry) → List (String × List AUEntry)
  | [] => [(name, [e])]
  | (n, es) :: rest =>
    if n = name then (n, es ++ [e]) :: rest else (n, es) :: appendEntry name e rest

/-- The body of the AU5800 data loop, pdf_processor.py lines 111-182.
Stops (returns the state) at the first terminator line. -/
def au5800ProcessLines : List String → AUParseState → AUParseState
  | [], st => st
  | raw_line :: rest, st =>
    if isStopLine raw_line then st
    else if strContains (myToLower raw_line) "no volume in the bottle" then
      let tokens := pySplit raw_line
      if tokens.length < 2 then
        au5800ProcessLines rest { st with failed := st.failed ++ [raw_line] }
      else
        let name_token := tokens.getD 1 ""
        let name :=
          if name_token.data.contains '.' then myToLower (splitDotSecond name_token)
          else myToLower name_token
        au5800ProcessLines rest { st with noVolume := st.noVolume ++ [(name, raw_line)] }
    else
      let tokens := pySplit raw_line
      if tokens.length < 8 then
        au5800ProcessLines rest { st with failed := st.failed ++ [raw_line] }
      else
        let t1 := tokens.getD 1 ""
        let shifted :=
          if t1.data.contains '.' then (myToLower (splitDotRest t1), tokens)
          else if tokens.length > 2 ∧ (tokens.getD 2 "").data.contains '.' then
            (myToLower (splitDotRest (tokens.getD 2 "")),
              [tokens.getD 0 "", t1 ++ tokens.getD 2 ""] ++ tokens.drop 3)
          else (myToLower t1, tokens)
        match extractDigitsConcat (shifted.2.getD 3 "") with
        | none =>
          au5800ProcessLines rest { st with failed := st.failed ++ [raw_line] }
        | some shots =>
          au5800ProcessLines rest
            { st with sets := appendEntry shifted.1 ⟨shots, findExpiry shifted.2⟩ st.sets }

/-- Result of `parse_au5800`: `headerFound = false` models the
header-not-found diagnostic with empty result dict. -/
structure AUParsed where
  headerFound : Bool
  data : List (String × AUResult)
  failed : List String
deriving Repr, DecidableEq

/-- pdf_processor.py `parse_au5800`, lines 93-221. -/
def parse_au5800 (text : String) : AUParsed :=
  let lines := parseLines text
  match findHeaderIdx au5800HeaderLine lines with
  | none => ⟨false, [], []⟩
  | some i =>
    let st := au5800ProcessLines (lines.drop (i + 1)) ⟨[], [], []⟩
    ⟨true, st.sets.map (fun p => (p.1, aggregate p.2)), st.failed⟩

/-! ### Roche e801 parser (pdf_processor.py `parse_e801`) -/

/-- Tail of the row regex `^(.+?)\s+(\d+)\s+(ASSAY|PRE|DIL)` after the lazy
name group: a whitespace run, a digit run (the Available count), a whitespace
run, then one of the keywords case-insensitively as a prefix of the rest. -/
def matchAfterName (cs : List Char) : Option Nat :=
  let ws1 := cs.takeWhile Char.isWhitespace
  if ws1.isEmpty then none
  else
    let r1 := cs.drop ws1.length
    let ds := r1.takeWhile Char.isDigit
    if ds.isEmpty then none
    else
      let r2 := r1.drop ds.length
      let ws2 := r2.takeWhile Char.isWhitespace
      if ws2.isEmpty then none
      else
        let r3 := (r2.drop ws2.length).map Char.toLower
        if ["assay", "pre", "dil"].any (fun kw => kw.data.isPrefixOf r3) then
          some (digitsToNat ds)
        else none

/-- The lazy group `(.+?)` of the row regex: the shortest non-empty leading
segment after which `matchAfterName` succeeds.  Returns the reversed name
characters and the Available count. -/
def matchRowAux : List Char → List Char → Option (List Char × Nat)
  | _, [] => none
  | acc, c :: rest =>
    match matchAfterName rest with
    | some n => some (c :: acc, n)
    | none => matchRowAux (c :: acc) rest

/-- `re.match(r"^(.+?)\s+(\d+)\s+(ASSAY|PRE|DIL)", line, re.IGNORECASE)`:
the raw Test name and the Available count, or `none` when the line does not
match (the row is then skipped).  pdf_processor.py line 49. -/
def matchRow (line : String) : Option (String × Nat) :=
  match matchRowAux [] line.data with
  | some p => some (String.mk p.1.reverse, p.2)
  | none => none

/-- `re.sub(r"[-\s]\d+$", "", raw_name)` matches a hyphen or whitespace
character followed by a digit run that reaches the end of the string; such a
match is unique when it exists, so the substitution strips at most one
trailing separator-plus-digits suffix.  pdf_processor.py line 55. -/
def stripSuffix (s : String) : String :=
  if (s.data.reverse.takeWhile Char.isDigit).isEmpty then s
  else
    match s.data.reverse.drop (s.data.reverse.takeWhile Char.isDigit).length with
    | [] => s
    | c :: rest => if c = '-' ∨ c.isWhitespace then String.mk rest.reverse else s

/-- The key under which an e801 row is stored: `base.strip().lower()` applied
to the suffix-stripped name.  pdf_processor.py lines 55 and 84. -/
def e801Canon (raw_name : String) : String :=
  myToLower (myTrim (stripSuffix raw_name))

/-- `re.match(r"(\d{4})/(\d{2})", tokens[-2])` followed by
`date(int(y), int(mth), 1)`: four digits, a slash, two digits as a prefix of
the token; an out-of-range month or year makes `date` raise, caught by the
bare `except` (so the expiry stays `None`).  Encoded as `(year, month)`. -/
def e801ExpiryToken (tok : String) : Option (Nat × Nat) :=
  let cs := tok.data
  let y4 := cs.take 4
  let m2 := (cs.drop 5).take 2
  if y4.length = 4 ∧ y4.all Char.isDigit ∧ cs.get? 4 = some '/'
      ∧ m2.length = 2 ∧ m2.all Char.isDigit then
    let y := digitsToNat y4
    let m := digitsToNat m2
    if 1 ≤ m ∧ m ≤ 12 ∧ 1 ≤ y then some (y, m) else none
  else none

/-- `re.search(r"\((\d+)\)", tok)`: leftmost opening parenthesis followed by
a maximal digit run and a closing parenthesis.  pdf_processor.py line 80. -/
def searchParen : List Char → Option Nat
  | [] => none
  | '(' :: rest =>
    let ds := rest.takeWhile Char.isDigit
    if ds ≠ [] ∧ rest.get? ds.length = some ')' then some (digitsToNat ds)
    else searchParen rest
  | _ :: rest => searchParen rest

/-- One parsed e801 row, pdf_processor.py lines 84-89.  `available` always
parses (the regex guarantees a digit run, so the `except` arm is dead). -/
structure E801Rec where
  available : Nat
  remaining : Option Int
  expiry_date : Option (Nat × Nat)
  expiry_days : Option Nat
deriving Repr, DecidableEq

/-- `data[key] = value` on a Python dict: an existing key keeps its position
and takes the new value, a new key is appended. -/
def upsert (k : String) (v : E801Rec) :
    List (String × E801Rec) → List (String × E801Rec)
  | [] => [(k, v)]
  | (k', v') :: rest =>
    if k' = k then (k, v) :: rest else (k', v') :: upsert k v rest

/-- The e801 data-line loop, pdf_processor.py lines 42-89: stop at a
terminator line, skip rows that fail the row regex, otherwise store the row
under its canonical key (overwriting a previous row with the same key). -/
def e801ProcessLines : List String → List (String × E801Rec) → List (String × E801Rec)
  | [], data => data
  | line :: rest, data =>
    if isStopLine line then data
    else
      match matchRow line with
      | none => e801ProcessLines rest data
      | some rn =>
        let tokens := pySplit line
        let remaining := (tokens.get? 4).bind pyIntOpt
        let expiry_date :=
          if tokens.length ≥ 2 then e801ExpiryToken (tokens.getD (tokens.length - 2) "")
          else none
        let expiry_days :=
          if tokens.length ≥ 2 then searchParen (tokens.getD (tokens.length - 1) "").data
          else none
        e801ProcessLines rest
          (upsert (e801Canon rn.1)
            ⟨rn.2, remaining, expiry_date, expiry_days⟩ data)

/-- Result of `parse_e801`: `headerFound = false` models the header-not-found
diagnostic with empty result dict. -/
structure E801Parsed where
  headerFound : Bool
  data : List (String × E801Rec)
deriving Repr, DecidableEq

/-- pdf_processor.py `parse_e801`, lines 23-91. -/
def parse_e801 (text : String) : E801Parsed :=
  let lines := parseLines text
  match findHeaderIdx e801HeaderLine lines with
  | none => ⟨false, []⟩
  | some i => ⟨true, e801ProcessLines (lines.drop (i + 1)) []⟩

/-! ### Minimum-volume key normalization (excel_processor.py) -/

/-- excel_processor.py lines 62-67: the minimum-volume keys are the reagent
cells `astype(str).str.strip().str.lower()`. -/
def minVolKey (raw : String) : String :=
  myToLower (myTrim raw)

/-- The key normalization applied on the e801 extraction side at the moment
of storage (pdf_processor.py line 84): `base.strip().lower()`. -/
def e801StoreKey (base : String) : String :=
  myToLower (myTrim base)

/-! ### Reconciliation engine (data_analyzer.py `find_reagents_to_load`) -/

/-- The per-analyzer volume/expiry fields of one parsed record, after the
`ANALYZER_FIELDS` key lookup (`fields.get(vol_key)` / `fields.get(expiry_key)`).
Expiry dates are day numbers, so `date` subtraction is integer subtraction. -/
structure RecordFields where
  vol : Option Int
  expiry : Option Int
deriving Repr, DecidableEq

/-- One flagged row, data_analyzer.py lines 86-92 (the optional per-analyzer
extra columns `Available Tests` / `Onboard Remaining` are presentation-only
and omitted). -/
structure FlaggedEntry where
  name : String
  currentVolume : Int
  minimumVolume : Int
  expiryDate : Option Int
  expiresSoon : Bool
deriving Repr, DecidableEq

/-- data_analyzer.py lines 79-82: `expires_soon` is `False` unless a date is
present, else `(expiry - today) <= timedelta(days=7)` with the hard-coded
seven-day window. -/
def expiresSoonCheck (today : Int) (expiry : Option Int) : Bool :=
  match expiry with
  | none => false
  | some d => decide (d - today ≤ 7)

/-- data_analyzer.py lines 66-98: the record loop.  A record without a
current volume is skipped outright; a record whose name misses the
minimum-volume map goes to the unmatched list; otherwise it is emitted iff
`current_vol <= min_vol or expires_soon`, carrying the title-cased name. -/
def find_reagents_to_load (currentData : List (String × RecordFields))
    (minVolumes : String → Option Int) (today : Int) :
    List FlaggedEntry × List String :=
  match currentData with
  | [] => ([], [])
  | (name, fields) :: rest =>
    let tail := find_reagents_to_load rest minVolumes today
    match fields.vol with
    | none => tail
    | some v =>
      match minVolumes name with
      | none => (tail.1, name :: tail.2)
      | some m =>
        let es := expiresSoonCheck today fields.expiry
        if decide (v ≤ m) || es then
          ({ name := pyTitle name, currentVolume := v, minimumVolume := m,
             expiryDate := fields.expiry, expiresSoon := es } :: tail.1, tail.2)
        else tail

/-- The flag decision for a single record, used to characterize the loop:
exactly the body of data_analyzer.py lines 67-98 restricted to the emitted
entry. -/
def flagOf (minVolumes : String → Option Int) (today : Int)
    (p : String × RecordFields) : Option FlaggedEntry :=
  match p.2.vol with
  | none => none
  | some v =>
    match minVolumes p.1 with
    | none => none
    | some m =>
      let es := expiresSoonCheck today p.2.expiry
      if decide (v ≤ m) || es then
        some { name := pyTitle p.1, currentVolume := v, minimumVolume := m,
               expiryDate := p.2.expiry, expiresSoon := es }
      else none

/-! ### Schema registry labels (pdf_processor.py `ANALYZER_HEADERS`) -/

/-- Expected header labels of the Roche e801 profile. -/
def e801Labels : List String :=
  ["Test", "Reason", "Available Tests", "Type",
   "Pos.", "Remaining", "Lot ID", "Expiry Date"]

/-- Expected header labels of the Beckman AU5800 profile. -/
def au5800Labels : List String :=
  ["Pos.", "Test Name", "R1/R2 Shots", "Onboard Remaining",
   "RB Stability Remaining", "Cal Stability Remaining",
   "Expiration", "Lot No.", "BTL No", "Seq.", "Comment"]

/-! ### Definitions modelled from the spec's words (for refinement claims) -/

/-- Head character is whitespace. -/
def headIsWs : List Char → Bool
  | [] => false
  | c :: _ => c.isWhitespace

/-- Modelled from the spec: the Header Locator's layout-preserving tokenizer,
"split on runs of two-or-more whitespace characters"; a single whitespace
character stays inside its token. -/
def splitWideAux : List Char → List Char → Bool → List (List Char)
  | [], acc, _ => [acc.reverse]
  | c :: rest, acc, skipping =>
    if skipping then
      if c.isWhitespace then splitWideAux rest acc true
      else splitWideAux rest [c] false
    else if c.isWhitespace && headIsWs rest then
      acc.reverse :: splitWideAux rest [] true
    else splitWideAux rest (c :: acc) false

/-- Modelled from the spec: candidate column tokens of a line (split on runs
of two-or-more whitespace characters, empty pieces discarded). -/
def splitWide (s : String) : List String :=
  ((splitWideAux s.data [] false).map String.mk).filter (fun t => t ≠ "")

/-- Modelled from the spec (section 4.2, missing as such from the code): a
line qualifies as the header when each of the first three of the profile's
expected header labels appears as a case-insensitive substring of some
candidate token of the line. -/
def specHeaderQualifies (labels : List String) (line : String) : Bool :=
  (labels.take 3).all (fun lab =>
    (splitWide line).any (fun t => strContains (myToLower t) (myToLower lab)))

/-- Collapse internal whitespace runs to single spaces (input already
trimmed). -/
def collapseWsAux : List Char → Bool → List Char
  | [], _ => []
  | c :: rest, prevWs =>
    if c.isWhitespace then
      if prevWs then collapseWsAux rest true
      else ' ' :: collapseWsAux rest true
    else c :: collapseWsAux rest false

/-- Modelled from the spec (section 4.5 Name Normalizer, missing as such from
the code): lower-case, trim outer whitespace, collapse internal whitespace
runs to single spaces. -/
def specNormalize (raw : String) : String :=
  String.mk (collapseWsAux (myToLower (myTrim raw)).data false)

/-- Modelled from the spec (section 4.3, missing as such from the code): the
integer-count extractor returns the first run of decimal digits within the
token, absent when the token has no digit. -/
def firstDigitRun (s : String) : Option Nat :=
  let cs := s.data.dropWhile (fun c => !c.isDigit)
  let ds := cs.takeWhile Char.isDigit
  if ds.isEmpty then none else some (digitsToNat ds)

/-! ### Concrete documents used by the example-scenario claims -/

/-- AU5800 document with two rows of quantities 30 and 45 for reagent bun. -/
def auDocPair : String :=
  "R1/R2 Shots\n1 BUN x 30 x x x x\n2 BUN x 45 x x x x"

/-- The same document with a third row of quantity 10 for reagent bun. -/
def auDocTriple : String :=
  "R1/R2 Shots\n1 BUN x 30 x x x x\n2 BUN x 45 x x x x\n3 BUN x 10 x x x x"

/-- AU5800 document whose single data row has no digit in its shots token. -/
def auDocNoDigits : String :=
  "R1/R2 Shots\n1 BUN x xx x x x x"

/-- AU5800 document whose shots token mixes two digit runs. -/
def auDocMixedDigits : String :=
  "R1/R2 Shots\n1 BUN x 1a2 x x x x"

/-- e801 document with a suffixed and an unsuffixed variant of one test. -/
def e801DocFT3 : String :=
  "Test Remaining\nFT3-3 50 ASSAY\nFT3 40 ASSAY"

/-- e801 document whose test name keeps an internal double space. -/
def e801DocSpaces : String :=
  "Test Remaining\nA  B 5 ASSAY"

/-- e801 document whose row has no fifth token, so the Remaining value is
absent. -/
def e801DocNoRemaining : String :=
  "Test Remaining\nFT3 50 ASSAY xx"

/-- A candidate header line containing the first three e801 labels as
spec-tokenizer tokens, but not the fragment remaining. -/
def c5HeaderLine : String := "Test  Reason  Available Tests"

/-- Modelled from the spec (section 4.4 paired-min-sum, the formula the
aggregation is compared against): walk a quantity list pairwise, each pair
contributing its minimum, an unpaired trailing entry its own value. -/
def pairMinSum : List Nat → Nat
  | [] => 0
  | [x] => x
  | x :: y :: rest => min x y + pairMinSum rest

/-! ### Helper lemmas -/

theorem walkPairs_eq : ∀ l : List AUEntry,
    walkPairs l = (pairMinSum (l.map AUEntry.shots), l.map AUEntry.expiry_date)
  | [] => rfl
  | [_] => rfl
  | e1 :: e2 :: rest => by
    simp [walkPairs, pairMinSum, walkPairs_eq rest]

theorem listMin_perm {l₁ l₂ : List Nat} (h : l₁.Perm l₂) : listMin l₁ = listMin l₂ := by
  induction h with
  | nil => rfl
  | cons x _ ih => simp [listMin, ih]
  | swap x y l =>
    cases hl : listMin l <;>
      simp [listMin, hl, Nat.min_comm, Nat.min_left_comm]
  | trans _ _ ih₁ ih₂ => exact ih₁.trans ih₂

theorem map_shots_sortEntries (l : List AUEntry) :
    (sortEntries l).map AUEntry.shots =
      List.insertionSort (fun a b : Nat => a ≤ b) (l.map AUEntry.shots) := by
  haveI : IsAntisymm Nat (fun a b : Nat => a ≤ b) :=
    ⟨fun _ _ h1 h2 => Nat.le_antisymm h1 h2⟩
  haveI : IsTotal Nat (fun a b : Nat => a ≤ b) := ⟨Nat.le_total⟩
  haveI : IsTrans Nat (fun a b : Nat => a ≤ b) := ⟨fun _ _ _ => Nat.le_trans⟩
  apply List.eq_of_perm_of_sorted (r := fun a b : Nat => a ≤ b)
  · exact ((List.perm_insertionSort shotsLE l).map AUEntry.shots).trans
      (List.perm_insertionSort _ (l.map AUEntry.shots)).symm
  · exact List.pairwise_map.mpr (List.sorted_insertionSort shotsLE l)
  · exact List.sorted_insertionSort _ _

theorem aggregate_spec (entries : List AUEntry) :
    aggregate entries =
      { shots := pairMinSum
          (List.insertionSort (fun a b : Nat => a ≤ b) (entries.map AUEntry.shots)),
        expiry_date := listMin (entries.filterMap AUEntry.expiry_date),
        onboard_remaining := none } := by
  show ({ shots := (walkPairs (sortEntries entries)).1,
          expiry_date := listMin ((walkPairs (sortEntries entries)).2.filterMap id),
          onboard_remaining := none } : AUResult) = _
  rw [walkPairs_eq]
  have hdates : ((sortEntries entries).map AUEntry.expiry_date).filterMap id =
      (sortEntries entries).filterMap AUEntry.expiry_date := by
    rw [List.filterMap_map]
    rfl
  have hperm : listMin ((sortEntries entries).filterMap AUEntry.expiry_date) =
      listMin (entries.filterMap AUEntry.expiry_date) :=
    listMin_perm ((List.perm_insertionSort shotsLE entries).filterMap _)
  simp only [map_shots_sortEntries, hdates, hperm]

theorem findHeaderIdx_eq_none_iff (p : String → Bool) (ls : List String) :
    findHeaderIdx p ls = none ↔ ∀ l ∈ ls, p l = false := by
  induction ls with
  | nil => simp [findHeaderIdx]
  | cons l ls ih =>
    by_cases h : p l
    · simp [findHeaderIdx, h]
    · simp [findHeaderIdx, h, Option.map_eq_none', ih]

theorem find_fst_eq (data : List (String × RecordFields))
    (mv : String → Option Int) (today : Int) :
    (find_reagents_to_load data mv today).1 = data.filterMap (flagOf mv today) := by
  induction data with
  | nil => rfl
  | cons p rest ih =>
    obtain ⟨name, fields⟩ := p
    cases hv : fields.vol with
    | none => simp [find_reagents_to_load, flagOf, hv, ih]
    | some v =>
      cases hm : mv name with
      | none => simp [find_reagents_to_load, flagOf, hv, hm, ih]
      | some m =>
        by_cases hc : (decide (v ≤ m) || expiresSoonCheck today fields.expiry) = true
        · simp [find_reagents_to_load, flagOf, hv, hm, hc, ih]
        · simp [find_reagents_to_load, flagOf, hv, hm, hc, ih]

/-! ### Claim theorems -/

/-- Claim C1, counterexample: parsing the two rows of quantities 30 and 45
together with a third row of quantity 10 for the same reagent yields an
aggregate quantity of 55, not the claimed 40 — the code sorts ascending
before pairing, so the pairs are (10, 30) and a trailing 45. -/
theorem claim_C1_counterexample :
    ((parse_au5800 auDocTriple).data.lookup "bun").map AUResult.shots = some 55
    ∧ ((parse_au5800 auDocTriple).data.lookup "bun").map AUResult.shots ≠ some 40 := by
  exact ⟨by decide, by decide⟩

/-- Claim C1, amended: two rows of quantities 30 and 45 for one reagent give
aggregate quantity 30 (the minimum of the single pair); adding a third row of
quantity 10 gives aggregate 55, because rows are sorted ascending first, so
the pair (10, 30) contributes 10 and the trailing 45 contributes itself. -/
theorem claim_C1_amended :
    ((parse_au5800 auDocPair).data.lookup "bun").map AUResult.shots = some 30
    ∧ ((parse_au5800 auDocTriple).data.lookup "bun").map AUResult.shots = some 55 := by
  exact ⟨by decide, by decide⟩

/-- Claim C2: for every reagent's entry list, the aggregate quantity equals
the pairwise-min sum of the ascending-sorted quantities (unpaired trailing
entry contributing its own value), and the reported expiry date is the
earliest non-absent date over all entries (absent when all are absent). -/
theorem claim_C2_paired_min_sum (entries : List AUEntry) :
    aggregate entries =
      { shots := pairMinSum
          (List.insertionSort (fun a b : Nat => a ≤ b) (entries.map AUEntry.shots)),
        expiry_date := listMin (entries.filterMap AUEntry.expiry_date),
        onboard_remaining := none } :=
  aggregate_spec entries

/-- Claim C6: paired-min-sum aggregation is invariant under permutation of
one reagent's rows — both the aggregate quantity and the earliest expiry
date are unchanged. -/
theorem claim_C6_perm_invariant (l₁ l₂ : List AUEntry) (h : l₁.Perm l₂) :
    aggregate l₁ = aggregate l₂ := by
  haveI : IsAntisymm Nat (fun a b : Nat => a ≤ b) :=
    ⟨fun _ _ h1 h2 => Nat.le_antisymm h1 h2⟩
  haveI : IsTotal Nat (fun a b : Nat => a ≤ b) := ⟨Nat.le_total⟩
  haveI : IsTrans Nat (fun a b : Nat => a ≤ b) := ⟨fun _ _ _ => Nat.le_trans⟩
  rw [aggregate_spec, aggregate_spec]
  have hs : List.insertionSort (fun a b : Nat => a ≤ b) (l₁.map AUEntry.shots) =
      List.insertionSort (fun a b : Nat => a ≤ b) (l₂.map AUEntry.shots) := by
    apply List.eq_of_perm_of_sorted (r := fun a b : Nat => a ≤ b)
    · exact (List.perm_insertionSort _ _).trans
        ((h.map AUEntry.shots).trans (List.perm_insertionSort _ _).symm)
    · exact List.sorted_insertionSort _ _
    · exact List.sorted_insertionSort _ _
  have hd : listMin (l₁.filterMap AUEntry.expiry_date) =
      listMin (l₂.filterMap AUEntry.expiry_date) :=
    listMin_perm (h.filterMap AUEntry.expiry_date)
  rw [hs, hd]

/-- Witness for C6 at a concrete two-element permutation. -/
theorem claim_C6_witness :
    aggregate [⟨45, some 20250101⟩, ⟨30, none⟩] =
      aggregate [⟨30, none⟩, ⟨45, some 20250101⟩] :=
  claim_C6_perm_invariant _ _
    (List.Perm.swap (⟨30, none⟩ : AUEntry) (⟨45, some 20250101⟩ : AUEntry) [])

/-- Claim C3: a record whose name is in the minimum-volume map and whose
quantity is present is flagged when currentQuantity equals minimumRequired
(the threshold is inclusive), and a record one unit above the minimum with
no expiry trigger is not flagged. -/
theorem claim_C3_threshold_boundary (mv : String → Option Int) (today : Int)
    (name : String) (m : Int) (expiry : Option Int)
    (data : List (String × RecordFields)) (hmv : mv name = some m) :
    (find_reagents_to_load ((name, ⟨some m, expiry⟩) :: data) mv today).1 =
      { name := pyTitle name, currentVolume := m, minimumVolume := m,
        expiryDate := expiry, expiresSoon := expiresSoonCheck today expiry }
        :: (find_reagents_to_load data mv today).1
    ∧ (find_reagents_to_load ((name, ⟨some (m + 1), none⟩) :: data) mv today).1 =
        (find_reagents_to_load data mv today).1 := by
  constructor
  · have hle : decide (m ≤ m) = true := by simp
    simp [find_reagents_to_load, hmv, hle]
  · have hgt : decide (m + 1 ≤ m) = false := by simp
    simp [find_reagents_to_load, hmv, hgt, expiresSoonCheck]

/-- Witness for C3 at a concrete record and map. -/
theorem claim_C3_witness :
    (find_reagents_to_load [("bun", ⟨some 5, none⟩)] (fun _ => some 5) 0).1 =
      { name := pyTitle "bun", currentVolume := 5, minimumVolume := 5,
        expiryDate := none, expiresSoon := expiresSoonCheck 0 none }
        :: (find_reagents_to_load [] (fun _ => some 5) 0).1
    ∧ (find_reagents_to_load [("bun", ⟨some (5 + 1), none⟩)] (fun _ => some 5) 0).1 =
        (find_reagents_to_load [] (fun _ => some 5) 0).1 :=
  claim_C3_threshold_boundary (fun _ => some 5) 0 "bun" 5 none [] rfl

/-- Claim C4: with the seven-day window, a record whose expiry date is
exactly seven days after today is marked expiring-soon, one eight days out
is not, and a record with an absent expiry date is never marked
expiring-soon. -/
theorem claim_C4_expiry_boundary (mv : String → Option Int) (today : Int)
    (name : String) (m : Int) (data data' : List (String × RecordFields))
    (e : FlaggedEntry) (hmv : mv name = some m)
    (he : e ∈ (find_reagents_to_load data' mv today).1)
    (hnone : e.expiryDate = none) :
    (find_reagents_to_load ((name, ⟨some m, some (today + 7)⟩) :: data) mv today).1 =
      { name := pyTitle name, currentVolume := m, minimumVolume := m,
        expiryDate := some (today + 7), expiresSoon := true }
        :: (find_reagents_to_load data mv today).1
    ∧ (find_reagents_to_load ((name, ⟨some m, some (today + 8)⟩) :: data) mv today).1 =
      { name := pyTitle name, currentVolume := m, minimumVolume := m,
        expiryDate := some (today + 8), expiresSoon := false }
        :: (find_reagents_to_load data mv today).1
    ∧ e.expiresSoon = false := by
  refine ⟨?_, ?_, ?_⟩
  · have h7 : expiresSoonCheck today (some (today + 7)) = true := by
      simp [expiresSoonCheck]
    have hle : decide (m ≤ m) = true := by simp
    simp [find_reagents_to_load, hmv, h7, hle]
  · have h8 : expiresSoonCheck today (some (today + 8)) = false := by
      simp [expiresSoonCheck]
    have hle : decide (m ≤ m) = true := by simp
    simp [find_reagents_to_load, hmv, h8, hle]
  · rw [find_fst_eq] at he
    obtain ⟨p, hp, hfl⟩ := List.mem_filterMap.mp he
    rcases hv : p.2.vol with _ | v
    · simp [flagOf, hv] at hfl
    · rcases hm2 : mv p.1 with _ | m2
      · simp [flagOf, hv, hm2] at hfl
      · simp only [flagOf, hv, hm2] at hfl
        split at hfl
        · obtain rfl := Option.some.inj hfl
          have hexp : p.2.expiry = none := hnone
          simp [expiresSoonCheck, hexp]
        · cases hfl

/-- Witness for C4 at a concrete record, map and membership. -/
theorem claim_C4_witness :
    (find_reagents_to_load [("bun", ⟨some 5, some (0 + 7)⟩)] (fun _ => some 5) 0).1 =
      { name := pyTitle "bun", currentVolume := 5, minimumVolume := 5,
        expiryDate := some (0 + 7), expiresSoon := true }
        :: (find_reagents_to_load [] (fun _ => some 5) 0).1
    ∧ (find_reagents_to_load [("bun", ⟨some 5, some (0 + 8)⟩)] (fun _ => some 5) 0).1 =
      { name := pyTitle "bun", currentVolume := 5, minimumVolume := 5,
        expiryDate := some (0 + 8), expiresSoon := false }
        :: (find_reagents_to_load [] (fun _ => some 5) 0).1
    ∧ FlaggedEntry.expiresSoon ⟨"Bun", 5, 5, none, false⟩ = false :=
  claim_C4_expiry_boundary (fun _ => some 5) 0 "bun" 5 [] [("bun", ⟨some 5, none⟩)]
    ⟨"Bun", 5, 5, none, false⟩ rfl (by decide) rfl

/-- Claim C10: a record with an absent quantity is silently dropped — it is
neither flagged nor added to the unmatched list, whatever the minimum-volume
map says about its name and whatever its expiry date is. -/
theorem claim_C10_absent_quantity_dropped (mv : String → Option Int) (today : Int)
    (name : String) (expiry : Option Int) (data : List (String × RecordFields)) :
    find_reagents_to_load ((name, ⟨none, expiry⟩) :: data) mv today =
      find_reagents_to_load data mv today := by
  simp [find_reagents_to_load]

theorem data_mk (cs : List Char) : (String.mk cs).data = cs := rfl

theorem takeWhile_append_all {α : Type} {p : α → Bool} (l₁ l₂ : List α)
    (h : l₁.all p = true) : (l₁ ++ l₂).takeWhile p = l₁ ++ l₂.takeWhile p := by
  induction l₁ with
  | nil => rfl
  | cons a l ih =>
    simp only [List.all_cons, Bool.and_eq_true] at h
    simp [List.takeWhile_cons, h.1, ih h.2]

theorem ws_not_digit (c : Char) (h : c.isWhitespace = true) : c.isDigit = false := by
  simp only [Char.isWhitespace, Bool.or_eq_true, decide_eq_true_eq] at h
  rcases h with ((h | h) | h) | h <;> subst h <;> decide

theorem findHeaderIdx_some_exists (p : String → Bool) (ls : List String) (i : Nat)
    (h : findHeaderIdx p ls = some i) : ∃ l ∈ ls, p l = true := by
  induction ls generalizing i with
  | nil => exact absurd h (by simp [findHeaderIdx])
  | cons l ls ih =>
    by_cases hp : p l
    · exact ⟨l, List.mem_cons_self l ls, hp⟩
    · simp [findHeaderIdx, hp, Option.map_eq_some'] at h
      obtain ⟨a, ha, _⟩ := h
      obtain ⟨l', hl', hpl'⟩ := ih a ha
      exact ⟨l', List.mem_cons_of_mem _ hl', hpl'⟩

/-- Claim C5, counterexample: the line consisting of the first three e801
labels as spec-tokenizer columns satisfies the spec's header criterion, but
the code rejects it (no fragment remaining occurs), so the iff in the claim
fails and the document yields header-not-found. -/
theorem claim_C5_counterexample :
    specHeaderQualifies e801Labels c5HeaderLine = true
    ∧ e801HeaderLine c5HeaderLine = false
    ∧ (parse_e801 c5HeaderLine).headerFound = false := by
  exact ⟨by decide, by decide, by decide⟩

/-- Claim C5, amended: a line qualifies as the e801 header iff the fragments
test and remaining both occur case-insensitively in the whole line, and as
the AU5800 header iff the fragment r1/r2 shots occurs; when no line
qualifies, parsing reports header-not-found with an empty RecordSet (and,
for AU5800, empty diagnostics). -/
theorem claim_C5_amended (text : String) :
    ((parse_e801 text).headerFound = true ↔
      ∃ line ∈ parseLines text,
        (strContains (myToLower line) "test"
          && strContains (myToLower line) "remaining") = true)
    ∧ ((parse_e801 text).headerFound = false → (parse_e801 text).data = [])
    ∧ ((parse_au5800 text).headerFound = true ↔
      ∃ line ∈ parseLines text, strContains (myToLower line) "r1/r2 shots" = true)
    ∧ ((parse_au5800 text).headerFound = false →
        (parse_au5800 text).data = [] ∧ (parse_au5800 text).failed = []) := by
  refine ⟨?_, ?_, ?_, ?_⟩
  · constructor
    · intro h
      rcases hidx : findHeaderIdx e801HeaderLine (parseLines text) with _ | i
      · exfalso
        revert h
        simp [parse_e801, hidx]
      · obtain ⟨l, hl, hpl⟩ := findHeaderIdx_some_exists _ _ _ hidx
        exact ⟨l, hl, by simpa [e801HeaderLine] using hpl⟩
    · rintro ⟨l, hl, hpl⟩
      rcases hidx : findHeaderIdx e801HeaderLine (parseLines text) with _ | i
      · exfalso
        have hfalse := (findHeaderIdx_eq_none_iff _ _).mp hidx l hl
        have htrue : e801HeaderLine l = true := by simpa [e801HeaderLine] using hpl
        rw [hfalse] at htrue
        cases htrue
      · simp [parse_e801, hidx]
  · intro h
    rcases hidx : findHeaderIdx e801HeaderLine (parseLines text) with _ | i
    · simp [parse_e801, hidx]
    · exfalso
      revert h
      simp [parse_e801, hidx]
  · constructor
    · intro h
      rcases hidx : findHeaderIdx au5800HeaderLine (parseLines text) with _ | i
      · exfalso
        revert h
        simp [parse_au5800, hidx]
      · obtain ⟨l, hl, hpl⟩ := findHeaderIdx_some_exists _ _ _ hidx
        exact ⟨l, hl, by simpa [au5800HeaderLine] using hpl⟩
    · rintro ⟨l, hl, hpl⟩
      rcases hidx : findHeaderIdx au5800HeaderLine (parseLines text) with _ | i
      · exfalso
        have hfalse := (findHeaderIdx_eq_none_iff _ _).mp hidx l hl
        have htrue : au5800HeaderLine l = true := by simpa [au5800HeaderLine] using hpl
        rw [hfalse] at htrue
        cases htrue
      · simp [parse_au5800, hidx]
  · intro h
    rcases hidx : findHeaderIdx au5800HeaderLine (parseLines text) with _ | i
    · simp [parse_au5800, hidx]
    · exfalso
      revert h
      simp [parse_au5800, hidx]

/-- Claim C7: canonicalization strips one trailing separator-plus-digits
sequence (for any base name, any hyphen-or-whitespace separator and any
non-empty digit run), the raw name FT3-3 yields canonical key ft3, FT3
yields the same key, and parsing a document holding both variants produces a
single RecordSet entry. -/
theorem claim_C7_suffix_strip (base : String) (sep : Char) (ds : List Char)
    (hsep : sep = '-' ∨ sep.isWhitespace = true) (hne : ds ≠ [])
    (hds : ds.all Char.isDigit = true) :
    stripSuffix (String.mk (base.data ++ sep :: ds)) = base
    ∧ e801Canon "FT3-3" = "ft3"
    ∧ e801Canon "FT3" = "ft3"
    ∧ (parse_e801 e801DocFT3).data.map Prod.fst = ["ft3"] := by
  refine ⟨?_, by decide, by decide, by decide⟩
  have hsepd : Char.isDigit sep = false := by
    rcases hsep with h | h
    · rw [h]; decide
    · exact ws_not_digit sep h
  have hrev : (String.mk (base.data ++ sep :: ds)).data.reverse
      = ds.reverse ++ sep :: base.data.reverse := by
    rw [data_mk, List.reverse_append, List.reverse_cons, List.append_assoc]
    rfl
  have hall : ds.reverse.all Char.isDigit = true := by
    rw [List.all_eq_true] at hds ⊢
    intro c hc
    exact hds c (List.mem_reverse.mp hc)
  have htake : (String.mk (base.data ++ sep :: ds)).data.reverse.takeWhile
      Char.isDigit = ds.reverse := by
    rw [hrev, takeWhile_append_all _ _ hall, List.takeWhile_cons, hsepd]
    simp
  have hne2 : ds.reverse.isEmpty = false := by
    rw [List.isEmpty_eq_false]
    simpa using hne
  have hdrop : (String.mk (base.data ++ sep :: ds)).data.reverse.drop
      ds.reverse.length = sep :: base.data.reverse := by
    rw [hrev]
    exact List.drop_left _ _
  unfold stripSuffix
  rw [htake, hne2, hdrop]
  simp only [Bool.false_eq_true, if_false]
  rw [if_pos hsep, List.reverse_reverse]

/-- Witness for C7 with base FT3, separator hyphen, digit run 3. -/
theorem claim_C7_witness :
    stripSuffix (String.mk ("FT3".data ++ '-' :: ['3'])) = "FT3"
    ∧ e801Canon "FT3-3" = "ft3"
    ∧ e801Canon "FT3" = "ft3"
    ∧ (parse_e801 e801DocFT3).data.map Prod.fst = ["ft3"] :=
  claim_C7_suffix_strip "FT3" '-' ['3'] (Or.inl rfl) (by decide) (by decide)

/-- Claim C8, counterexample: the raw name with an internal double space is
stored under the key a˽˽b (double space preserved), while the claimed
normalization (collapse internal whitespace runs) yields a˽b, and the two
differ. -/
theorem claim_C8_counterexample :
    (parse_e801 e801DocSpaces).data.map Prod.fst = ["a  b"]
    ∧ specNormalize "A  B" = "a b"
    ∧ ("a  b" : String) ≠ "a b" := by
  exact ⟨by decide, by decide, by decide⟩

/-- Claim C8, amended: the canonical join key on both the extraction side
and the minimum-volume side is the raw name lower-cased with outer
whitespace trimmed — the two sides use the identical function — but
internal whitespace runs are preserved, not collapsed. -/
theorem claim_C8_amended (s : String) :
    e801StoreKey s = minVolKey s
    ∧ minVolKey s = myToLower (myTrim s)
    ∧ e801StoreKey "A  B" = "a  b"
    ∧ (parse_e801 e801DocSpaces).data.map Prod.fst = [minVolKey "A  B"] := by
  exact ⟨rfl, rfl, by decide, by decide⟩

/-- Claim C9, counterexample: the AU5800 extractor concatenates all digit
runs (token 1a2 yields 12, not the first run 1); the e801 extractor parses
the whole token (token 50abc yields no value, not 50); and an e801 row whose
Remaining value is absent is still recorded, not skipped. -/
theorem claim_C9_counterexample :
    extractDigitsConcat "1a2" = some 12
    ∧ firstDigitRun "1a2" = some 1
    ∧ pyIntOpt "50abc" = none
    ∧ firstDigitRun "50abc" = some 50
    ∧ (parse_e801 e801DocNoRemaining).data = [("ft3", ⟨50, none, none, none⟩)] := by
  exact ⟨by decide, by decide, by decide, by decide, by decide⟩

/-- Claim C9, amended: the AU5800 shots extractor is absent exactly when the
token has no decimal digit, and such a row is recorded in diagnostics and
contributes no entry; a token with several digit runs yields their
concatenation; an e801 row whose Remaining token fails the whole-token
integer parse is kept with an absent value rather than skipped. -/
theorem claim_C9_amended (tok : String) :
    (extractDigitsConcat tok = none ↔ ∀ c ∈ tok.data, c.isDigit = false)
    ∧ (parse_au5800 auDocNoDigits).data = []
    ∧ (parse_au5800 auDocNoDigits).failed = ["1 BUN x xx x x x x"]
    ∧ ((parse_au5800 auDocMixedDigits).data.lookup "bun").map AUResult.shots = some 12
    ∧ (parse_e801 e801DocNoRemaining).data.map (fun p => p.2.remaining) = [none] := by
  refine ⟨?_, by decide, by decide, by decide, by decide⟩
  constructor
  · intro h c hc
    by_contra hd
    have hmem : c ∈ tok.data.filter Char.isDigit :=
      List.mem_filter.mpr ⟨hc, by simpa using hd⟩
    by_cases he : (tok.data.filter Char.isDigit).isEmpty
    · rw [List.isEmpty_iff] at he
      rw [he] at hmem
      cases hmem
    · exfalso
      revert h
      simp [extractDigitsConcat, he]
  · intro hall
    have hnil : tok.data.filter Char.isDigit = [] := by
      rw [List.filter_eq_nil_iff]
      intro c hc
      simp [hall c hc]
    simp [extractDigitsConcat, hnil]
